import Mathlib

/-!
Verification development for the mcutil library (Go): shallow embedding of
the RCON client (`RCONClient` in the unnamed source file) and the address
utilities (`util.go`), with theorems settling the specification claims.

Bytes are modelled as `Nat` (values kept below 256 where it matters), byte
streams as `List Nat`, and a TCP connection whose `Read` may return fewer
bytes than requested as a list of chunks `List (List Nat)`, each chunk being
the bytes one `conn.Read` call can deliver.  Go `int32` values are modelled
as `Int` with explicit two's-complement wrapping via `% 2^32`.
-/

namespace Mcutil

/-- Two's-complement wrap of an integer into the `int32` range, the effect of
Go's defined overflow on `int32` arithmetic such as `r.requestID++`. -/
def wrap32 (z : Int) : Int :=
  (z + 2147483648) % 4294967296 - 2147483648

/-- The unsigned 32-bit pattern of an integer, as used by
`binary.Write(..., binary.LittleEndian, int32(v))`. -/
def toUInt32 (z : Int) : Nat :=
  (z % 4294967296).toNat

/-- `binary.Write(buf, binary.LittleEndian, int32(z))`: the four bytes of the
two's-complement representation of `z`, least significant first. -/
def writeInt32LE (z : Int) : List Nat :=
  [toUInt32 z % 256, toUInt32 z / 256 % 256,
   toUInt32 z / 65536 % 256, toUInt32 z / 16777216 % 256]

/-- Reinterpret an unsigned value as a signed `int32` (two's complement). -/
def toInt32 (n : Nat) : Int :=
  if n % 4294967296 < 2147483648 then ((n % 4294967296 : Nat) : Int)
  else ((n % 4294967296 : Nat) : Int) - 4294967296

/-- `binary.Read(r, binary.LittleEndian, &v)` for an `int32` destination:
`io.ReadFull` of four bytes, decoded little-endian; an exhausted stream is a
read error (`none`). -/
def readInt32 (s : List Nat) : Option (Int × List Nat) :=
  match s with
  | b0 :: b1 :: b2 :: b3 :: rest =>
      some (toInt32 (b0 + 256 * b1 + 65536 * b2 + 16777216 * b3), rest)
  | _ => none

/-! ## util.go: ParseAddress -/

/-- A character of the host group `[A-Za-z0-9.]` of `addressRegExp`. -/
def isHostChar (c : Char) : Bool :=
  c.isUpper || c.isLower || c.isDigit || c = '.'

/-- Numeric value of a decimal digit string, as `strconv.ParseUint` computes
it for an all-digit input. -/
def digitsVal (ds : List Char) : Nat :=
  ds.foldl (fun a c => a * 10 + (c.toNat - 48)) 0

/-- The two failure modes of `ParseAddress` in `util.go`: the
`fmt.Errorf("address: cannot parse ...")` error when `addressRegExp` does not
match the whole input, and the `strconv.ErrRange` error propagated from
`strconv.ParseUint(port, 10, 16)`. -/
inductive AddrError
  | addressError
  | rangeError
deriving DecidableEq, Repr

/-- `ParseAddress(address, defaultPort)` from `util.go`.

The regular expression is `^([A-Za-z0-9.]+)(?::(\d{1,5}))?$`.  Because `:`
is not in the host class, a whole-string match exists exactly when the part
before the first `:` is a nonempty run of host characters and the part after
it (when present) is one to five decimal digits; the split at the first `:`
is the only possible one, so this function is the regex semantics.  A
matching port of one to five digits can only fail `ParseUint` with its range
error (value above 65535). -/
def ParseAddress (address : String) (defaultPort : Nat) :
    Except AddrError (String × Nat) :=
  let cs := address.data
  let host := cs.takeWhile (fun c => c ≠ ':')
  let rest := cs.dropWhile (fun c => c ≠ ':')
  if host.isEmpty || !host.all isHostChar then .error .addressError
  else
    match rest with
    | [] => .ok (⟨host⟩, defaultPort)
    | _ :: ds =>
        if ds.all Char.isDigit && 1 ≤ ds.length && ds.length ≤ 5 then
          if 65536 ≤ digitsVal ds then .error .rangeError
          else .ok (⟨host⟩, digitsVal ds)
        else .error .addressError

/-! ## util.go: readNTString -/

/-- `readNTString(r)` from `util.go`: read single bytes until a `0x00`
terminator (consumed, excluded from the result); a read error — including
end of stream — is propagated (`none`).  Returns the accumulated bytes and
the unconsumed remainder of the stream. -/
def readNTString : List Nat → Option (List Nat × List Nat)
  | [] => none
  | b :: rest =>
      if b = 0 then some ([], rest)
      else (readNTString rest).map (fun p => (b :: p.1, p.2))

/-! ## RCON client: state and packets -/

/-- The mutable fields of Go's `RCONClient` that the claims are about:
`conn` (modelled by whether a transport is attached), `authSuccess` and
`requestID`.  The `Messages` channel is modelled in the pump (it is created
open by `NewRCON` and no statement in the source ever closes it). -/
structure RCONClient where
  connOpen : Bool
  authSuccess : Bool
  requestID : Int
deriving DecidableEq, Repr

/-- `NewRCON()`: no connection, not authenticated, request counter 0. -/
def NewRCON : RCONClient :=
  ⟨false, false, 0⟩

/-- The errors surfaced by the RCON client.  `unexpectedRequestID` and
`unexpectedPacketType` carry the expected and received values named in the
`fmt.Errorf` messages; `readError` stands for any error returned by a
connection read, `writeError` for a failed `io.Copy` to the connection,
`dialError` and `closeError` for failures of the transport itself. -/
inductive RCONError
  | errNotConnected
  | errAlreadyLoggedIn
  | errInvalidPassword
  | errNotAuthenticated
  | unexpectedRequestID (expected received : Int)
  | unexpectedPacketType (expected received : Int)
  | readError
  | writeError
  | dialError
  | closeError
deriving DecidableEq, Repr

/-- The login request packet built by `Login`: length `int32(10+len(password))`,
request ID `0`, type `3`, then `password ++ [0x00]`, then one `0x00` padding
byte, each field written little-endian into the buffer in this order. -/
def loginPacket (password : List Nat) : List Nat :=
  writeInt32LE (10 + password.length) ++ writeInt32LE 0 ++ writeInt32LE 3 ++
    (password ++ [0]) ++ [0]

/-- The command packet built by `Run`: identical layout with type `2` and the
(already incremented) request ID. -/
def runPacket (requestID : Int) (command : List Nat) : List Nat :=
  writeInt32LE (10 + command.length) ++ writeInt32LE requestID ++ writeInt32LE 2 ++
    (command ++ [0]) ++ [0]

/-- A single `conn.Read(data)` with a buffer of `size` bytes over a flat
stream: returns up to `size` bytes; an empty stream with a nonempty buffer is
a read error (EOF), and an empty buffer returns immediately with no bytes. -/
def connRead (s : List Nat) (size : Nat) : Option (List Nat × List Nat) :=
  if size = 0 then some ([], s)
  else if s.isEmpty then none
  else some (s.take size, s.drop size)

/-! ## RCON client: Dial, Login, Run, Close

`Dial` and the transport `Close` can fail in the network; those outcomes are
passed in as a boolean.  Deadline updates (`SetDeadline`, `SetReadDeadline`)
are modelled as succeeding: they only fail on a closed socket, and no claim
is about that path. -/

/-- `Dial(host, port, opts...)`: on success attaches the transport
(`r.conn = conn`); on failure returns before touching the client. -/
def Dial (r : RCONClient) (dialOk : Bool) : Option RCONError × RCONClient :=
  if dialOk then (none, { r with connOpen := true })
  else (some .dialError, r)

/-- Outcome of `Login`: the returned error (`none` on success), the client
state after the call, how many background pump goroutines the call started,
and the bytes written to the connection. -/
structure LoginResult where
  err : Option RCONError
  client : RCONClient
  pumpsStarted : Nat
  sent : List Nat
deriving DecidableEq, Repr

/-- `Login(password)` over a response stream `resp` (the bytes the server
sends back, delivered as one contiguous stream: the three header fields are
read with `binary.Read`, i.e. `io.ReadFull`).  Steps, in source order:
reject when `conn == nil` or already authenticated; write the login packet;
read length, request ID and type as little-endian `int32`; request ID `-1`
is `ErrInvalidPassword`, any other nonzero request ID and any type other
than `2` are protocol errors naming expected and received values; drain
`packetLength-8` trailing bytes with a single `conn.Read` (a negative count
would make `make([]byte, ...)` panic in Go; no claim exercises it, the model
clamps at zero); then set `authSuccess`, clear the read deadline and start
exactly one background pump goroutine. -/
def Login (r : RCONClient) (password : List Nat) (resp : List Nat) : LoginResult :=
  if r.connOpen = false then ⟨some .errNotConnected, r, 0, []⟩
  else if r.authSuccess then ⟨some .errAlreadyLoggedIn, r, 0, []⟩
  else
    let sent := loginPacket password
    match readInt32 resp with
    | none => ⟨some .readError, r, 0, sent⟩
    | some (packetLength, s1) =>
      match readInt32 s1 with
      | none => ⟨some .readError, r, 0, sent⟩
      | some (requestID, s2) =>
        if requestID = -1 then ⟨some .errInvalidPassword, r, 0, sent⟩
        else if requestID ≠ 0 then ⟨some (.unexpectedRequestID 0 requestID), r, 0, sent⟩
        else
          match readInt32 s2 with
          | none => ⟨some .readError, r, 0, sent⟩
          | some (packetType, s3) =>
            if packetType ≠ 2 then ⟨some (.unexpectedPacketType 2 packetType), r, 0, sent⟩
            else
              match connRead s3 (packetLength - 8).toNat with
              | none => ⟨some .readError, r, 0, sent⟩
              | some _ => ⟨none, { r with authSuccess := true }, 1, sent⟩

/-- Outcome of `Run`: returned error, client state after the call, and the
bytes written to the connection. -/
structure RunResult where
  err : Option RCONError
  client : RCONClient
  sent : List Nat
deriving DecidableEq, Repr

/-- `Run(command)`: reject when `conn == nil` or not authenticated;
otherwise increment `requestID` (Go `int32` increment, hence `wrap32`), build
the command packet carrying the incremented ID, and copy it to the
connection; `writeOk` is whether that `io.Copy` succeeds.  The increment
happens before the write and is not rolled back on a write failure. -/
def Run (r : RCONClient) (command : List Nat) (writeOk : Bool) : RunResult :=
  if r.connOpen = false then ⟨some .errNotConnected, r, []⟩
  else if r.authSuccess = false then ⟨some .errNotAuthenticated, r, []⟩
  else
    let r' := { r with requestID := wrap32 (r.requestID + 1) }
    if writeOk then ⟨none, r', runPacket r'.requestID command⟩
    else ⟨some .writeError, r', []⟩

/-- `Close()`: always resets `authSuccess` and `requestID`; when a transport
is attached it is closed, and a close failure is returned before the
reference is cleared (`r.conn = nil` is only reached after a successful
close); with no transport attached the call succeeds. -/
def Close (r : RCONClient) (closeOk : Bool) : Option RCONError × RCONClient :=
  let r1 : RCONClient := { r with authSuccess := false, requestID := 0 }
  if r.connOpen then
    if closeOk then (none, { r1 with connOpen := false })
    else (some .closeError, r1)
  else (none, { r1 with connOpen := false })

/-! ## RCON client: the background pump and readMessage

`readMessage` mixes raw `conn.Read` calls (which may return fewer bytes than
the buffer holds) with one `binary.Read` (which retries until full).  The
connection is therefore modelled as a list of chunks: each raw `conn.Read`
returns at most the head chunk. -/

/-- One raw `conn.Read(data)` with a `size`-byte buffer over a chunked
stream: returns up to `size` bytes out of the head chunk; an exhausted
stream with a nonempty buffer is a read error (EOF); an empty buffer
returns zero bytes immediately. -/
def chunkRead (chunks : List (List Nat)) (size : Nat) :
    Option (List Nat × List (List Nat)) :=
  if size = 0 then some ([], chunks)
  else
    match chunks with
    | [] => none
    | c :: rest =>
        some (c.take size, if (c.drop size).isEmpty then rest else c.drop size :: rest)

/-- `io.ReadFull` (what `binary.Read` performs): repeated `conn.Read` calls
until `size` bytes are accumulated; end of stream before that is an error. -/
def readFull : List (List Nat) → Nat → Option (List Nat × List (List Nat))
  | chunks, 0 => some ([], chunks)
  | [], _ + 1 => none
  | c :: rest, size + 1 =>
      let got := c.take (size + 1)
      if (c.drop (size + 1)).isEmpty then
        if got.length = size + 1 then some (got, rest)
        else
          match readFull rest (size + 1 - got.length) with
          | none => none
          | some (more, rem) => some (got ++ more, rem)
      else some (got, c.drop (size + 1) :: rest)

/-- What one `readMessage` call did: returned a read error; returned the
type-mismatch protocol error; returned `nil` without publishing anything
(the `n < 4` / `n < 1` short-read paths); or published a message on the
`Messages` channel and returned `nil`. -/
inductive ReadMessageResult
  | readErr
  | typeErr (received : Int)
  | silent
  | published (msg : List Nat)
deriving DecidableEq, Repr

/-- `readMessage()` from the source, over a chunked stream.  In source
order: read a 4-byte buffer with one raw `conn.Read`; on error return it; if
fewer than 4 bytes arrived, return `nil` (the bytes stay consumed); decode
`packetLength` with `binary.LittleEndian.Uint16`, i.e. from the FIRST TWO
bytes only.  Read a 4-byte buffer the same way for the request ID and
discard it, with the same `n < 4 → nil` path.  Read the type with
`binary.Read` (full 4 bytes, little-endian `int32`) and fail on any value
other than 2.  Finally `make` a `packetLength-8`-byte buffer (negative would
panic in Go; clamped at zero here, no claim exercises it), fill it with one
raw `conn.Read`, return `nil` if fewer than 1 byte arrived, else publish
`string(data)` — the whole buffer, the unfilled tail being zero bytes. -/
def readMessage (chunks : List (List Nat)) : ReadMessageResult × List (List Nat) :=
  match chunkRead chunks 4 with
  | none => (.readErr, chunks)
  | some (data, s1) =>
    if data.length < 4 then (.silent, s1)
    else
      let packetLength : Int := toInt32 (data.getD 0 0 + 256 * data.getD 1 0)
      match chunkRead s1 4 with
      | none => (.readErr, s1)
      | some (d2, s2) =>
        if d2.length < 4 then (.silent, s2)
        else
          match readFull s2 4 with
          | none => (.readErr, s2)
          | some (d3, s3) =>
            let packetType : Int :=
              toInt32 (d3.getD 0 0 + 256 * d3.getD 1 0 + 65536 * d3.getD 2 0 +
                16777216 * d3.getD 3 0)
            if packetType ≠ 2 then (.typeErr packetType, s3)
            else
              match chunkRead s3 (packetLength - 8).toNat with
              | none => (.readErr, s3)
              | some (d4, s4) =>
                if d4.length < 1 then (.silent, s4)
                else
                  (.published (d4 ++ List.replicate ((packetLength - 8).toNat - d4.length) 0),
                   s4)

/-- The background pump goroutine started by `Login`:
`for { err := r.readMessage(); if err != nil { fmt.Println(err) } }`.
The loop body has no `break`, `return` or `close(r.Messages)`, so the loop
continues after every outcome, errors included, and the channel stays open.
`pump n chunks` observes the first `n` iterations: it returns the outcome of
each `readMessage` call made, the unconsumed stream, and whether the
`Messages` channel has been closed (constantly `false`, faithfully to the
source, which never closes it). -/
def pump : Nat → List (List Nat) → List ReadMessageResult × List (List Nat) × Bool
  | 0, chunks => ([], chunks, false)
  | n + 1, chunks =>
      let step := readMessage chunks
      let rec' := pump n step.2
      (step.1 :: rec'.1, rec'.2.1, rec'.2.2)

/-- A client in the state produced by `Dial` followed by a successful
`Login` on a fresh `NewRCON` client: transport attached, authenticated,
request counter still 0. -/
def freshAuthed : RCONClient :=
  ⟨true, true, 0⟩

/-- The client state after `n` `Run` calls (each with a successful write)
starting from `freshAuthed`. -/
def runN : Nat → RCONClient
  | 0 => freshAuthed
  | n + 1 => (Run (runN n) [] true).client

/-! ## Helper lemmas -/

/-- Writing an in-range `int32` and reading it back with `binary.Read`
round-trips and consumes exactly four bytes. -/
theorem readInt32_writeInt32LE (z : Int) (rest : List Nat)
    (h1 : -2147483648 ≤ z) (h2 : z < 2147483648) :
    readInt32 (writeInt32LE z ++ rest) = some (z, rest) := by
  have key : toInt32 (toUInt32 z % 256 + 256 * (toUInt32 z / 256 % 256) +
      65536 * (toUInt32 z / 65536 % 256) +
      16777216 * (toUInt32 z / 16777216 % 256)) = z := by
    have hlt : toUInt32 z < 4294967296 := by unfold toUInt32; omega
    have h3 : toUInt32 z % 256 + 256 * (toUInt32 z / 256 % 256) +
        65536 * (toUInt32 z / 65536 % 256) +
        16777216 * (toUInt32 z / 16777216 % 256) = toUInt32 z := by omega
    rw [h3]
    unfold toInt32 toUInt32
    split <;> omega
  simp only [writeInt32LE, List.cons_append, List.nil_append, readInt32, key]

/-- `wrap32` absorbs an inner wrap. -/
theorem wrap32_wrap32_add (a b : Int) : wrap32 (wrap32 a + b) = wrap32 (a + b) := by
  unfold wrap32
  omega

/-- `wrap32` is the identity on the `int32` range. -/
theorem wrap32_eq_self (z : Int) (h1 : -2147483648 ≤ z) (h2 : z < 2147483648) :
    wrap32 z = z := by
  unfold wrap32
  omega

/-- Dropping the four bytes of a written `int32` field. -/
theorem drop4_writeInt32LE_append (z : Int) (t : List Nat) :
    (writeInt32LE z ++ t).drop 4 = t := by
  simp [writeInt32LE]

/-- The command packet after the length field. -/
theorem runPacket_drop4 (rid : Int) (cmd : List Nat) :
    (runPacket rid cmd).drop 4 =
      writeInt32LE rid ++ (writeInt32LE 2 ++ (cmd ++ [0] ++ [0])) := by
  simp [runPacket, writeInt32LE, List.append_assoc]

/-- The command packet after the length and request ID fields. -/
theorem runPacket_drop8 (rid : Int) (cmd : List Nat) :
    (runPacket rid cmd).drop 8 = writeInt32LE 2 ++ (cmd ++ [0] ++ [0]) := by
  simp [runPacket, writeInt32LE, List.append_assoc]

/-- The login packet after the length field. -/
theorem loginPacket_drop4 (pw : List Nat) :
    (loginPacket pw).drop 4 = writeInt32LE 0 ++ (writeInt32LE 3 ++ (pw ++ [0] ++ [0])) := by
  simp [loginPacket, writeInt32LE, List.append_assoc]

/-- The login packet after the length and request ID fields. -/
theorem loginPacket_drop8 (pw : List Nat) :
    (loginPacket pw).drop 8 = writeInt32LE 3 ++ (pw ++ [0] ++ [0]) := by
  simp [loginPacket, writeInt32LE, List.append_assoc]

/-- No branch of `Login` ever touches the request counter. -/
theorem login_client_requestID (r : RCONClient) (pw resp : List Nat) :
    (Login r pw resp).client.requestID = r.requestID := by
  unfold Login
  repeat first
  | rfl
  | split

/-- `runN` preserves the connection and authentication flags and holds the
wrapped count in the request counter. -/
theorem runN_spec (n : Nat) : runN n = ⟨true, true, wrap32 n⟩ := by
  induction n with
  | zero =>
      have h0 : wrap32 (0 : Int) = 0 := by unfold wrap32; norm_num
      simp [runN, freshAuthed, h0]
  | succ n ih =>
      have hcast : ((n + 1 : Nat) : Int) = (n : Int) + 1 := by push_cast; ring
      rw [runN, ih, hcast]
      simp [Run, wrap32_wrap32_add]

/-! ## Claim theorems -/

/-- C7: for every byte string `s` with no embedded `0x00`, `readNTString` on
a stream holding `s` followed by a `0x00` terminator (and anything after)
returns exactly `s`, consuming the terminator but excluding it from the
result. -/
theorem readNTString_c7 (s rest : List Nat) (h : ∀ b ∈ s, b ≠ 0) :
    readNTString (s ++ 0 :: rest) = some (s, rest) := by
  induction s with
  | nil => simp [readNTString]
  | cons b tl ih =>
      have hb : b ≠ 0 := h b (by simp)
      have ih' := ih (fun x hx => h x (List.mem_cons_of_mem b hx))
      simp [readNTString, hb, ih']

theorem readNTString_c7_witness :
    (∀ b ∈ [104, 105], b ≠ 0) ∧
      readNTString ([104, 105] ++ 0 :: [7, 8]) = some ([104, 105], [7, 8]) :=
  ⟨by decide, readNTString_c7 [104, 105] [7, 8] (by decide)⟩

/-- C1 (evidence for the code bug): on a dead connection (a stream at EOF)
every `readMessage` call returns a read error, yet the pump performs all `n`
observed iterations — the loop never terminates after an error — and the
`Messages` channel is never closed. -/
theorem pump_never_terminates_c1 (n : Nat) :
    (readMessage []).1 = ReadMessageResult.readErr ∧
      pump n [] = (List.replicate n ReadMessageResult.readErr, [], false) := by
  have hrm : readMessage [] = (ReadMessageResult.readErr, []) := rfl
  refine ⟨by rw [hrm], ?_⟩
  induction n with
  | zero => rfl
  | succ n ih => simp [pump, hrm, ih, List.replicate]

/-- C2 (evidence for the code bug): a short read of the 4-byte length field
(two bytes arrive) makes `readMessage` return `nil` silently, consuming the
two bytes without retrying and without a ProtocolError; and a well-formed
frame with a genuine zero-length payload (`packetLength = 8`) takes the very
same silent path, so the two cases are not distinguished and the empty
payload is never published. -/
theorem readMessage_short_read_c2 :
    readMessage [[17, 0], [23, 0, 0, 0]] = (ReadMessageResult.silent, [[23, 0, 0, 0]]) ∧
      readMessage [[8, 0, 0, 0, 0, 0, 0, 0, 2, 0, 0, 0]] = (ReadMessageResult.silent, []) := by
  constructor <;> rfl

/-- C3 (counterexample): `ParseAddress "host:999999" 25565` does not fail
with the numeric-parse range error the claim names — the six-digit port
segment already fails the whole-pattern regex match, so the address error is
returned instead. -/
theorem parseAddress_999999_c3_counterexample :
    ParseAddress "host:999999" 25565 = .error .addressError ∧
      ParseAddress "host:999999" 25565 ≠ .error .rangeError := by
  have h1 : ParseAddress "host:999999" 25565 = .error .addressError := rfl
  refine ⟨h1, ?_⟩
  rw [h1]
  intro hcontra
  exact absurd (Except.error.inj hcontra) (by decide)

/-- C3 (amended): `ParseAddress` matches the whole input against
`host[:port]` (host: letters, digits, dots; port: 1–5 decimal digits) and
fails with the address error when the pattern does not match the entire
string; a missing port segment yields the default port; a port segment of
one to five digits whose value exceeds 65535, such as `"host:99999"`, fails
with the numeric-parse range error; `"host:999999"` has a six-digit port
segment, so the pattern itself fails and the result is the address error,
not the range error. -/
theorem parseAddress_c3 (host ds : String) (dp : Nat)
    (hne : host.data ≠ [])
    (hhost : host.data.all isHostChar = true)
    (hds : ds.data.all Char.isDigit = true)
    (hlen1 : 1 ≤ ds.data.length) (hlen2 : ds.data.length ≤ 5) :
    ParseAddress host dp = .ok (host, dp) ∧
    ParseAddress (host ++ ":" ++ ds) dp =
      (if 65536 ≤ digitsVal ds.data then .error .rangeError
       else .ok (host, digitsVal ds.data)) ∧
    ParseAddress "not a valid host!!" 25565 = .error .addressError ∧
    ParseAddress "host:99999" 25565 = .error .rangeError ∧
    ParseAddress "host:999999" 25565 = .error .addressError := by
  have hcolon : ∀ x ∈ host.data, (fun c => decide (c ≠ ':')) x = true := by
    intro x hx
    have hx' : isHostChar x = true := List.all_eq_true.mp hhost x hx
    have hxc : x ≠ ':' := by
      intro heq
      subst heq
      exact absurd hx' (by decide)
    simpa using hxc
  have htake : host.data.takeWhile (fun c => decide (c ≠ ':')) = host.data :=
    List.takeWhile_eq_self_iff.mpr hcolon
  have hdrop : host.data.dropWhile (fun c => decide (c ≠ ':')) = [] :=
    List.dropWhile_eq_nil_iff.mpr hcolon
  have hempty : host.data.isEmpty = false := by
    cases h : host.data with
    | nil => exact absurd h hne
    | cons a l => rfl
  refine ⟨?_, ?_, by rfl, by rfl, by rfl⟩
  · unfold ParseAddress
    simp only [htake, hdrop, hempty, hhost, Bool.not_true, Bool.false_or, Bool.or_false,
      Bool.false_eq_true, if_false]
  · have hdata : (host ++ ":" ++ ds).data = host.data ++ ':' :: ds.data := by
      rw [String.data_append, String.data_append]
      simp
    unfold ParseAddress
    rw [hdata]
    simp only [List.takeWhile_append_of_pos hcolon, List.dropWhile_append_of_pos hcolon,
      List.takeWhile_cons, List.dropWhile_cons]
    simp [hempty, hhost, hds]
    intro h
    exact absurd (h hlen1) (Nat.not_lt.mpr hlen2)

theorem parseAddress_c3_witness :
    ParseAddress "play.example.com" 25565 = .ok ("play.example.com", 25565) ∧
    ParseAddress ("play.example.com" ++ ":" ++ "25566") 25565 =
      (if 65536 ≤ digitsVal "25566".data then .error .rangeError
       else .ok ("play.example.com", digitsVal "25566".data)) ∧
    ParseAddress "not a valid host!!" 25565 = .error .addressError ∧
    ParseAddress "host:99999" 25565 = .error .rangeError ∧
    ParseAddress "host:999999" 25565 = .error .addressError :=
  parseAddress_c3 "play.example.com" "25566" 25565 (by decide) (by decide) (by decide)
    (by decide) (by decide)

/-- C6: every outbound Login and Command packet has the layout
`[int32 length LE][int32 requestID LE][int32 type LE][payload][0x00][0x00]`:
the length field decodes to `4+4+len(payload)+1+1`, the request ID field to
the transmitted ID (`0` for Login), the type field to `3` for Login and `2`
for Command, and after the three header fields come the payload bytes
followed by exactly one terminator byte and one padding byte. -/
theorem packet_layout_c6 (payload command : List Nat) (rid : Int)
    (hp : payload.length ≤ 2147483637) (hc : command.length ≤ 2147483637)
    (hr1 : -2147483648 ≤ rid) (hr2 : rid < 2147483648) :
    readInt32 (loginPacket payload) =
      some (4 + 4 + (payload.length : Int) + 1 + 1, (loginPacket payload).drop 4) ∧
    readInt32 ((loginPacket payload).drop 4) = some (0, (loginPacket payload).drop 8) ∧
    readInt32 ((loginPacket payload).drop 8) = some (3, (loginPacket payload).drop 12) ∧
    (loginPacket payload).drop 12 = payload ++ [0] ++ [0] ∧
    readInt32 (runPacket rid command) =
      some (4 + 4 + (command.length : Int) + 1 + 1, (runPacket rid command).drop 4) ∧
    readInt32 ((runPacket rid command).drop 4) = some (rid, (runPacket rid command).drop 8) ∧
    readInt32 ((runPacket rid command).drop 8) = some (2, (runPacket rid command).drop 12) ∧
    (runPacket rid command).drop 12 = command ++ [0] ++ [0] := by
  have hdrop4 : ∀ (z : Int) (t : List Nat), (writeInt32LE z ++ t).drop 4 = t := by
    intro z t
    simp [writeInt32LE]
  have hL : loginPacket payload =
      writeInt32LE ((10 + payload.length : Nat) : Int) ++
        (writeInt32LE 0 ++ (writeInt32LE 3 ++ (payload ++ [0] ++ [0]))) := by
    simp [loginPacket, List.append_assoc]
  have hR : runPacket rid command =
      writeInt32LE ((10 + command.length : Nat) : Int) ++
        (writeInt32LE rid ++ (writeInt32LE 2 ++ (command ++ [0] ++ [0]))) := by
    simp [runPacket, List.append_assoc]
  have hvalL : ((10 + payload.length : Nat) : Int) = 4 + 4 + (payload.length : Int) + 1 + 1 := by
    push_cast
    ring
  have hvalR : ((10 + command.length : Nat) : Int) = 4 + 4 + (command.length : Int) + 1 + 1 := by
    push_cast
    ring
  have hdropL4 : (loginPacket payload).drop 4 =
      writeInt32LE 0 ++ (writeInt32LE 3 ++ (payload ++ [0] ++ [0])) := by
    rw [hL, hdrop4]
  have hdropL8 : (loginPacket payload).drop 8 = writeInt32LE 3 ++ (payload ++ [0] ++ [0]) := by
    have : ((loginPacket payload).drop 4).drop 4 = (loginPacket payload).drop 8 := by
      rw [List.drop_drop]
    rw [← this, hdropL4, hdrop4]
  have hdropL12 : (loginPacket payload).drop 12 = payload ++ [0] ++ [0] := by
    have : ((loginPacket payload).drop 8).drop 4 = (loginPacket payload).drop 12 := by
      rw [List.drop_drop]
    rw [← this, hdropL8, hdrop4]
  have hdropR4 : (runPacket rid command).drop 4 =
      writeInt32LE rid ++ (writeInt32LE 2 ++ (command ++ [0] ++ [0])) := by
    rw [hR, hdrop4]
  have hdropR8 : (runPacket rid command).drop 8 = writeInt32LE 2 ++ (command ++ [0] ++ [0]) := by
    have : ((runPacket rid command).drop 4).drop 4 = (runPacket rid command).drop 8 := by
      rw [List.drop_drop]
    rw [← this, hdropR4, hdrop4]
  have hdropR12 : (runPacket rid command).drop 12 = command ++ [0] ++ [0] := by
    have : ((runPacket rid command).drop 8).drop 4 = (runPacket rid command).drop 12 := by
      rw [List.drop_drop]
    rw [← this, hdropR8, hdrop4]
  refine ⟨?_, ?_, ?_, hdropL12, ?_, ?_, ?_, hdropR12⟩
  · rw [hL, readInt32_writeInt32LE _ _ (by push_cast; omega) (by push_cast; omega),
      hdrop4, hvalL]
  · rw [hdropL4, readInt32_writeInt32LE 0 _ (by omega) (by omega), hdropL8]
  · rw [hdropL8, readInt32_writeInt32LE 3 _ (by omega) (by omega), hdropL12]
  · rw [hR, readInt32_writeInt32LE _ _ (by push_cast; omega) (by push_cast; omega),
      hdrop4, hvalR]
  · rw [hdropR4, readInt32_writeInt32LE rid _ hr1 hr2, hdropR8]
  · rw [hdropR8, readInt32_writeInt32LE 2 _ (by omega) (by omega), hdropR12]

theorem packet_layout_c6_witness :
    (loginPacket [112]).drop 12 = [112] ++ [0] ++ [0] ∧
    readInt32 ((runPacket 7 [99]).drop 4) = some (7, (runPacket 7 [99]).drop 8) :=
  ⟨(packet_layout_c6 [112] [99] 7 (by norm_num) (by norm_num) (by norm_num)
      (by norm_num)).2.2.2.1,
   (packet_layout_c6 [112] [99] 7 (by norm_num) (by norm_num) (by norm_num)
      (by norm_num)).2.2.2.2.2.1⟩

/-- C4: with a connected, unauthenticated client and a login response whose
header decodes to `(len, rid, ty)`: a response with `rid = -1` returns the
invalid-password error and leaves the client state unchanged with no pump
started; any other nonzero `rid` returns the protocol error naming expected
`0` versus the received value; `rid = 0` with `ty ≠ 2` returns the protocol
error naming expected `2` versus the received value, again with no state
change; and a well-formed response (`rid = 0`, `ty = 2`, drainable trailer)
succeeds, setting `authSuccess` and starting exactly one background pump. -/
theorem login_c4 (r : RCONClient) (pw rest : List Nat) (len rid ty : Int)
    (hconn : r.connOpen = true) (hauth : r.authSuccess = false)
    (hlen1 : -2147483648 ≤ len) (hlen2 : len < 2147483648)
    (hrid1 : -2147483648 ≤ rid) (hrid2 : rid < 2147483648)
    (hty1 : -2147483648 ≤ ty) (hty2 : ty < 2147483648) :
    (rid = -1 →
      Login r pw (writeInt32LE len ++ (writeInt32LE rid ++ (writeInt32LE ty ++ rest))) =
        ⟨some .errInvalidPassword, r, 0, loginPacket pw⟩) ∧
    (rid ≠ -1 → rid ≠ 0 →
      Login r pw (writeInt32LE len ++ (writeInt32LE rid ++ (writeInt32LE ty ++ rest))) =
        ⟨some (.unexpectedRequestID 0 rid), r, 0, loginPacket pw⟩) ∧
    (rid = 0 → ty ≠ 2 →
      Login r pw (writeInt32LE len ++ (writeInt32LE rid ++ (writeInt32LE ty ++ rest))) =
        ⟨some (.unexpectedPacketType 2 ty), r, 0, loginPacket pw⟩) ∧
    (rid = 0 → ty = 2 → (len ≤ 8 ∨ rest ≠ []) →
      Login r pw (writeInt32LE len ++ (writeInt32LE rid ++ (writeInt32LE ty ++ rest))) =
        ⟨none, { r with authSuccess := true }, 1, loginPacket pw⟩) := by
  have e1 := readInt32_writeInt32LE len (writeInt32LE rid ++ (writeInt32LE ty ++ rest)) hlen1 hlen2
  have e2 := readInt32_writeInt32LE rid (writeInt32LE ty ++ rest) hrid1 hrid2
  have e3 := readInt32_writeInt32LE ty rest hty1 hty2
  refine ⟨?_, ?_, ?_, ?_⟩
  · intro hrid
    subst hrid
    simp [Login, hconn, hauth, e1, e2]
  · intro hrneg hrzero
    simp [Login, hconn, hauth, e1, e2, hrneg, hrzero]
  · intro hrzero htyne
    subst hrzero
    simp [Login, hconn, hauth, e1, e2, e3, htyne]
  · intro hrzero htyeq hdrain
    subst hrzero
    subst htyeq
    have hv : ∃ v, connRead rest (len - 8).toNat = some v := by
      unfold connRead
      by_cases hz : (len - 8).toNat = 0
      · rw [if_pos hz]
        exact ⟨_, rfl⟩
      · rcases hdrain with hle | hne
        · exact absurd (by omega) hz
        · have hrest : rest.isEmpty = false := by
            cases rest with
            | nil => exact absurd rfl hne
            | cons a l => rfl
          rw [if_neg hz, hrest]
          exact ⟨(List.take (len - 8).toNat rest, List.drop (len - 8).toNat rest), by simp⟩
    obtain ⟨v, hv⟩ := hv
    simp [Login, hconn, hauth, e1, e2, e3, hv]

theorem login_c4_witness :
    Login ⟨true, false, 0⟩ [112]
        (writeInt32LE 10 ++ (writeInt32LE 0 ++ (writeInt32LE 2 ++ [0, 0]))) =
      ⟨none, ⟨true, true, 0⟩, 1, loginPacket [112]⟩ :=
  (login_c4 ⟨true, false, 0⟩ [112] [0, 0] 10 0 2 rfl rfl (by norm_num) (by norm_num)
      (by norm_num) (by norm_num) (by norm_num) (by norm_num)).2.2.2 rfl rfl
    (Or.inr (by simp))

/-- C5 (counterexample): the request counter is a Go `int32`, so it is not
monotonically increasing across all Run calls: starting from a freshly
authenticated session, after 2147483647 Run calls the counter holds the
`int32` maximum 2147483647, and the next Run call wraps it to -2147483648 —
that call does not increment the counter by 1 and the counter decreases. -/
theorem run_requestID_wrap_c5_counterexample :
    (runN 2147483647).requestID = 2147483647 ∧
    (runN 2147483648).requestID = -2147483648 ∧
    ¬ (runN 2147483647).requestID < (runN 2147483648).requestID := by
  rw [runN_spec 2147483647, runN_spec 2147483648]
  refine ⟨?_, ?_, ?_⟩ <;> simp [wrap32]

/-- C5 (amended): while the counter stays below the `int32` maximum, every
Run call with satisfied preconditions increments the request counter by
exactly 1 — in particular strictly increasing it —, the first Run after
authentication (counter 0) transmits request ID 1 in its packet, and Login
never consumes the counter: no branch of Login changes it, and the login
packet always carries request ID 0. -/
theorem run_requestID_c5 (r r2 : RCONClient) (cmd pw resp : List Nat)
    (h1 : r.connOpen = true) (h2 : r.authSuccess = true)
    (h3 : -2147483648 ≤ r.requestID) (h4 : r.requestID < 2147483647) :
    (Run r cmd true).client.requestID = r.requestID + 1 ∧
    r.requestID < (Run r cmd true).client.requestID ∧
    (r.requestID = 0 →
      readInt32 (((Run r cmd true).sent).drop 4) =
        some (1, ((Run r cmd true).sent).drop 8)) ∧
    (Login r2 pw resp).client.requestID = r2.requestID ∧
    readInt32 ((loginPacket pw).drop 4) = some (0, (loginPacket pw).drop 8) := by
  have hw : wrap32 (r.requestID + 1) = r.requestID + 1 :=
    wrap32_eq_self _ (by omega) (by omega)
  have hrun : Run r cmd true =
      ⟨none, { r with requestID := r.requestID + 1 },
        runPacket (r.requestID + 1) cmd⟩ := by
    simp [Run, h1, h2, hw]
  refine ⟨by rw [hrun], by rw [hrun]; exact lt_add_one _, ?_, login_client_requestID r2 pw resp, ?_⟩
  · intro hzero
    rw [hrun]
    show readInt32 ((runPacket (r.requestID + 1) cmd).drop 4) =
      some (1, (runPacket (r.requestID + 1) cmd).drop 8)
    rw [runPacket_drop4, readInt32_writeInt32LE _ _ (by omega) (by omega),
      runPacket_drop8, hzero]
    norm_num
  · rw [loginPacket_drop4, readInt32_writeInt32LE 0 _ (by norm_num) (by norm_num),
      loginPacket_drop8]

theorem run_requestID_c5_witness :
    (Run ⟨true, true, 0⟩ [99] true).client.requestID = (0 : Int) + 1 ∧
    readInt32 (((Run ⟨true, true, 0⟩ [99] true).sent).drop 4) =
      some (1, ((Run ⟨true, true, 0⟩ [99] true).sent).drop 8) ∧
    (Login ⟨true, false, 5⟩ [112] []).client.requestID = (5 : Int) := by
  have h := run_requestID_c5 ⟨true, true, 0⟩ ⟨true, false, 5⟩ [99] [112] []
    rfl rfl (by norm_num) (by norm_num)
  exact ⟨h.1, h.2.2.1 rfl, h.2.2.2.1⟩

/-- C10: on an authenticated session, a Run whose write fails still leaves
the counter incremented by 1 (the increment happens before the write and is
not rolled back), the failed call transmits nothing, and the next successful
Run transmits a request ID two above the original counter — skipping the
failed call's ID. -/
theorem run_no_rollback_c10 (r : RCONClient) (cmd cmd2 : List Nat)
    (h1 : r.connOpen = true) (h2 : r.authSuccess = true)
    (h3 : -2147483648 ≤ r.requestID) (h4 : r.requestID + 2 < 2147483648) :
    (Run r cmd false).err = some .writeError ∧
    (Run r cmd false).sent = [] ∧
    (Run r cmd false).client.requestID = r.requestID + 1 ∧
    readInt32 (((Run ((Run r cmd false).client) cmd2 true).sent).drop 4) =
      some (r.requestID + 2,
        ((Run ((Run r cmd false).client) cmd2 true).sent).drop 8) := by
  have hw1 : wrap32 (r.requestID + 1) = r.requestID + 1 :=
    wrap32_eq_self _ (by omega) (by omega)
  have hfail : Run r cmd false =
      ⟨some .writeError, { r with requestID := r.requestID + 1 }, []⟩ := by
    simp [Run, h1, h2, hw1]
  have hw2 : wrap32 (r.requestID + 1 + 1) = r.requestID + 2 := by
    rw [wrap32_eq_self _ (by omega) (by omega)]
    ring
  have hsucc : Run { r with requestID := r.requestID + 1 } cmd2 true =
      ⟨none, { r with requestID := r.requestID + 2 },
        runPacket (r.requestID + 2) cmd2⟩ := by
    simp [Run, h1, h2, hw2]
  refine ⟨by rw [hfail], by rw [hfail], by rw [hfail], ?_⟩
  rw [hfail]
  show readInt32 (((Run { r with requestID := r.requestID + 1 } cmd2 true).sent).drop 4) =
    some (r.requestID + 2,
      ((Run { r with requestID := r.requestID + 1 } cmd2 true).sent).drop 8)
  rw [hsucc]
  show readInt32 ((runPacket (r.requestID + 2) cmd2).drop 4) =
    some (r.requestID + 2, (runPacket (r.requestID + 2) cmd2).drop 8)
  rw [runPacket_drop4, readInt32_writeInt32LE _ _ (by omega) (by omega), runPacket_drop8]

theorem run_no_rollback_c10_witness :
    (Run ⟨true, true, 0⟩ [5] false).err = some .writeError ∧
    (Run ⟨true, true, 0⟩ [5] false).client.requestID = (0 : Int) + 1 ∧
    readInt32 (((Run ((Run ⟨true, true, 0⟩ [5] false).client) [6] true).sent).drop 4) =
      some ((0 : Int) + 2,
        ((Run ((Run ⟨true, true, 0⟩ [5] false).client) [6] true).sent).drop 8) := by
  have h := run_no_rollback_c10 ⟨true, true, 0⟩ [5] [6] rfl rfl (by norm_num) (by norm_num)
  exact ⟨h.1, h.2.2.1, h.2.2.2⟩

/-- C8: Close always resets the authenticated flag and the request counter
to their initial values; on a session with no open transport it succeeds and
leaves the client in the fresh disconnected state, repeated Close calls keep
succeeding, and a subsequent Dial yields exactly the state a fresh
`NewRCON`-then-`Dial` session has — fully usable again.  When a transport is
attached and its close succeeds, the reference is cleared as well. -/
theorem close_c8 (r : RCONClient) (b b2 : Bool) :
    (Close r true).1 = none ∧
    (Close r true).2 = ⟨false, false, 0⟩ ∧
    (r.connOpen = false → Close r b = (none, ⟨false, false, 0⟩)) ∧
    Close (Close r true).2 b2 = (none, ⟨false, false, 0⟩) ∧
    Dial (Close r true).2 true = Dial NewRCON true ∧
    (Dial (Close r true).2 true).2 = ⟨true, false, 0⟩ := by
  have hc : Close r true = (none, ⟨false, false, 0⟩) := by
    unfold Close
    split <;> rfl
  refine ⟨by rw [hc], by rw [hc], ?_, by rw [hc]; rfl, by rw [hc]; rfl, by rw [hc]; rfl⟩
  intro hno
  unfold Close
  rw [hno]
  rfl

theorem close_c8_witness :
    Close (⟨false, true, 7⟩ : RCONClient) true = (none, ⟨false, false, 0⟩) ∧
    Dial (Close (⟨false, true, 7⟩ : RCONClient) true).2 true = Dial NewRCON true :=
  ⟨(close_c8 ⟨false, true, 7⟩ true false).2.2.1 rfl,
   (close_c8 ⟨false, true, 7⟩ true false).2.2.2.2.1⟩

end Mcutil
